import Mathlib

set_option maxHeartbeats 1000000
set_option maxRecDepth 100000

/-! Shallow embedding of the collaborative-docs OT engine and session hub.
Documents and operation texts are byte strings in Go; they are embedded as
lists of characters (the algorithms use only length, slicing, concatenation
and equality, which agree with the byte semantics on this representation).
Go ints are embedded as unbounded integers. -/

abbrev Str := List Char

/-- Modelled from the spec: the operation kind of §3 (operation.go is not in
the sources; the three kinds Insert, Delete, Retain are fixed by the spec and
corroborated by ot_test.go). -/
inductive OpType where
  | insert
  | delete
  | retain
deriving DecidableEq

/-- Modelled from the spec: the Operation record of §3 (operation.go is not in
the sources; the field set is corroborated by ot_test.go and the wire format
of §6). -/
structure Operation where
  type : OpType
  position : Int
  text : Str
  version : Int
deriving DecidableEq

/-- Modelled from the spec: Operation.Length, the length of the operation
text, used by Transform and applyDelete (ot.go calls op.Length()). -/
def Operation.Length (op : Operation) : Int := op.text.length

/-- Modelled from the spec: Validate (§3 invariants): position ≥ 0,
version ≥ 0, Insert and Delete require nonempty text, Retain may carry empty
text (corroborated by TestOperationValidation in ot_test.go). -/
def Operation.Validate (op : Operation) : Bool :=
  decide (0 ≤ op.position) && decide (0 ≤ op.version) &&
    (match op.type with
     | .retain => true
     | _ => !op.text.isEmpty)

/-- Error taxonomy of §7, standing in for the Go error values (the code
reports errors as formatted strings; only their identity matters here). -/
inductive OpError where
  | invalidOperation
  | positionOutOfRange
  | deleteTextMismatch
  | unsupportedCombination
deriving DecidableEq

/-- applyInsert from the operations package: insert text at the position
after the range check. -/
def applyInsert (doc : Str) (op : Operation) : Except OpError Str :=
  if op.position < 0 ∨ op.position > (doc.length : Int) then
    .error .positionOutOfRange
  else
    .ok (doc.take op.position.toNat ++ op.text ++ doc.drop op.position.toNat)

/-- applyDelete from the operations package: remove text at the position
after the range checks and the byte-exact text match. -/
def applyDelete (doc : Str) (op : Operation) : Except OpError Str :=
  if op.position < 0 ∨ op.position ≥ (doc.length : Int) then
    .error .positionOutOfRange
  else if op.position + op.Length > (doc.length : Int) then
    .error .positionOutOfRange
  else
    let p := op.position.toNat
    let actual := (doc.drop p).take op.text.length
    if actual = op.text then
      .ok (doc.take p ++ doc.drop (p + op.text.length))
    else
      .error .deleteTextMismatch

/-- Apply from the operations package: validate, then dispatch on the kind
(Retain returns the document unchanged). -/
def Apply (doc : Str) (op : Operation) : Except OpError Str :=
  if !op.Validate then .error .invalidOperation
  else
    match op.type with
    | .insert => applyInsert doc op
    | .delete => applyDelete doc op
    | .retain => .ok doc

/-- transformInsertInsert from ot.go: same-position inserts give op2
right-bias. -/
def transformInsertInsert (op1 op2 : Operation) : Operation × Operation :=
  if op1.position < op2.position then
    (op1, { op2 with position := op2.position + op1.Length })
  else if op1.position > op2.position then
    ({ op1 with position := op1.position + op2.Length }, op2)
  else
    (op1, { op2 with position := op2.position + op1.Length })

/-- transformInsertDelete from ot.go: inserts at or before the delete shift
the delete right; inserts past the delete range shift left; inserts inside
the range collapse to the range start. -/
def transformInsertDelete (ins del : Operation) : Operation × Operation :=
  if ins.position ≤ del.position then
    (ins, { del with position := del.position + ins.Length })
  else if ins.position > del.position + del.Length then
    ({ ins with position := ins.position - del.Length }, del)
  else
    ({ ins with position := del.position }, del)

/-- transformDeleteDelete from ot.go: shift for disjoint ranges, empty both
texts for identical ranges, and clip the later-starting delete on overlap. -/
def transformDeleteDelete (op1 op2 : Operation) : Operation × Operation :=
  let op1Start := op1.position
  let op1End := op1.position + op1.Length
  let op2Start := op2.position
  let op2End := op2.position + op2.Length
  if op1End ≤ op2Start then
    (op1, { op2 with position := op2.position - op1.Length })
  else if op2End ≤ op1Start then
    ({ op1 with position := op1.position - op2.Length }, op2)
  else if op1Start = op2Start ∧ op1End = op2End then
    ({ op1 with text := [] }, { op2 with text := [] })
  else if op2Start < op1Start then
    let overlap := min op1End op2End - op1Start
    if 0 < overlap ∧ overlap < op1.Length then
      ({ op1 with position := op2Start, text := op1.text.drop overlap.toNat }, op2)
    else if overlap ≥ op1.Length then
      ({ op1 with position := op2Start, text := [] }, op2)
    else
      ({ op1 with position := op2Start }, op2)
  else
    let overlap := min op1End op2End - op2Start
    if 0 < overlap ∧ overlap < op2.Length then
      (op1, { op2 with position := op1Start, text := op2.text.drop overlap.toNat })
    else if overlap ≥ op2.Length then
      (op1, { op2 with position := op1Start, text := [] })
    else
      (op1, { op2 with position := op1Start })

/-- Transform from ot.go: validate both operations, bump each version by
one, then dispatch on the pair of kinds; transformDeleteInsert is
transformInsertDelete with the roles swapped.  (The Go nil checks have no
counterpart: Lean values are never nil.) -/
def Transform (op1 op2 : Operation) : Except OpError (Operation × Operation) :=
  if !op1.Validate then .error .invalidOperation
  else if !op2.Validate then .error .invalidOperation
  else
    let op1Prime := { op1 with version := op1.version + 1 }
    let op2Prime := { op2 with version := op2.version + 1 }
    match op1.type, op2.type with
    | .insert, .insert => .ok (transformInsertInsert op1Prime op2Prime)
    | .insert, .delete => .ok (transformInsertDelete op1Prime op2Prime)
    | .delete, .insert =>
        let r := transformInsertDelete op2Prime op1Prime
        .ok (r.2, r.1)
    | .delete, .delete => .ok (transformDeleteDelete op1Prime op2Prime)
    | _, _ => .error .unsupportedCombination

lemma transformInsertInsert_versions (p q : Operation) :
    (transformInsertInsert p q).1.version = p.version ∧
    (transformInsertInsert p q).2.version = q.version := by
  unfold transformInsertInsert
  split
  · exact ⟨rfl, rfl⟩
  · split
    · exact ⟨rfl, rfl⟩
    · exact ⟨rfl, rfl⟩

lemma transformInsertDelete_versions (p q : Operation) :
    (transformInsertDelete p q).1.version = p.version ∧
    (transformInsertDelete p q).2.version = q.version := by
  unfold transformInsertDelete
  split
  · exact ⟨rfl, rfl⟩
  · split
    · exact ⟨rfl, rfl⟩
    · exact ⟨rfl, rfl⟩

lemma transformDeleteDelete_versions (p q : Operation) :
    (transformDeleteDelete p q).1.version = p.version ∧
    (transformDeleteDelete p q).2.version = q.version := by
  unfold transformDeleteDelete
  dsimp only
  repeat' split
  all_goals exact ⟨rfl, rfl⟩

/-- C1: the spec claims Transform convergence for every kind combination,
including an insert landing strictly inside a delete range.  The code
violates this (and its own doc comment on Transform): for doc "abcd",
a = insert(2,"Z",v0), b = delete(1,"bc",v0), Transform collapses the insert
to position 1 and leaves the delete untouched, so applying a and then the
transformed b fails with a delete text mismatch while the other order
yields "aZd". -/
theorem transform_insert_inside_delete_fails_convergence :
    Transform (Operation.mk .insert 2 ['Z'] 0) (Operation.mk .delete 1 ['b', 'c'] 0) =
      .ok (Operation.mk .insert 1 ['Z'] 1, Operation.mk .delete 1 ['b', 'c'] 1) ∧
    Apply ['a', 'b', 'c', 'd'] (Operation.mk .insert 2 ['Z'] 0) =
      .ok ['a', 'b', 'Z', 'c', 'd'] ∧
    Apply ['a', 'b', 'Z', 'c', 'd'] (Operation.mk .delete 1 ['b', 'c'] 1) =
      .error .deleteTextMismatch ∧
    Apply ['a', 'b', 'c', 'd'] (Operation.mk .delete 1 ['b', 'c'] 0) = .ok ['a', 'd'] ∧
    Apply ['a', 'd'] (Operation.mk .insert 1 ['Z'] 1) = .ok ['a', 'Z', 'd'] :=
  ⟨rfl, rfl, rfl, rfl, rfl⟩

/-- C3: two valid inserts at the same position transform with right-bias to
the second: the first keeps its position and the second is shifted right by
the length of the first; on "ac" with X and Y at position 1 the transformed
second insert lands at position 2 and both application orders give "aXYc". -/
theorem transform_insert_insert_tie_right_bias
    (a b : Operation) (ha : a.type = .insert) (hb : b.type = .insert)
    (hva : a.Validate = true) (hvb : b.Validate = true)
    (hpos : a.position = b.position) :
    Transform a b =
      .ok ({ a with version := a.version + 1 },
           { b with position := b.position + a.Length, version := b.version + 1 }) ∧
    (Transform (Operation.mk .insert 1 ['X'] 0) (Operation.mk .insert 1 ['Y'] 0) =
       .ok (Operation.mk .insert 1 ['X'] 1, Operation.mk .insert 2 ['Y'] 1) ∧
     Apply ['a', 'c'] (Operation.mk .insert 1 ['X'] 0) = .ok ['a', 'X', 'c'] ∧
     Apply ['a', 'X', 'c'] (Operation.mk .insert 2 ['Y'] 1) = .ok ['a', 'X', 'Y', 'c'] ∧
     Apply ['a', 'c'] (Operation.mk .insert 1 ['Y'] 0) = .ok ['a', 'Y', 'c'] ∧
     Apply ['a', 'Y', 'c'] (Operation.mk .insert 1 ['X'] 1) = .ok ['a', 'X', 'Y', 'c']) := by
  refine ⟨?_, rfl, rfl, rfl, rfl, rfl⟩
  unfold Transform
  rw [hva, hvb, ha, hb]
  simp only [Bool.not_true, Bool.false_eq_true, if_false]
  unfold transformInsertInsert
  simp [hpos, Operation.Length]

/-- Witness for C3 at a = insert(1,"X",0), b = insert(1,"Y",0). -/
theorem transform_insert_insert_tie_right_bias_witness :
    Transform (Operation.mk .insert 1 ['X'] 0) (Operation.mk .insert 1 ['Y'] 0) =
      .ok (Operation.mk .insert 1 ['X'] 1, Operation.mk .insert 2 ['Y'] 1) :=
  (transform_insert_insert_tie_right_bias
      (Operation.mk .insert 1 ['X'] 0) (Operation.mk .insert 1 ['Y'] 0)
      rfl rfl (by decide) (by decide) rfl).2.1

/-- C4: for operations authored against the same version, both operations
returned by a successful Transform carry version max(a.version, b.version)
+ 1 (each side is bumped by exactly one). -/
theorem transform_bumps_version_to_max_plus_one
    (a b a1 b1 : Operation) (hv : a.version = b.version)
    (h : Transform a b = .ok (a1, b1)) :
    a1.version = max a.version b.version + 1 ∧
    b1.version = max a.version b.version + 1 := by
  unfold Transform at h
  by_cases hva : a.Validate = true
  · rw [hva] at h
    by_cases hvb : b.Validate = true
    · rw [hvb] at h
      simp only [Bool.not_true, Bool.false_eq_true, if_false] at h
      rw [hv, max_self]
      cases hta : a.type <;> cases htb : b.type <;> rw [hta, htb] at h <;>
        dsimp only at h
      · injection h with h2
        have u := transformInsertInsert_versions
          ⟨OpType.insert, a.position, a.text, a.version + 1⟩
          ⟨OpType.insert, b.position, b.text, b.version + 1⟩
        rw [h2] at u
        dsimp only at u
        rw [u.1, u.2, hv]
        exact ⟨rfl, rfl⟩
      · injection h with h2
        have u := transformInsertDelete_versions
          ⟨OpType.insert, a.position, a.text, a.version + 1⟩
          ⟨OpType.delete, b.position, b.text, b.version + 1⟩
        rw [h2] at u
        dsimp only at u
        rw [u.1, u.2, hv]
        exact ⟨rfl, rfl⟩
      · exact Except.noConfusion h
      · injection h with h2
        rw [Prod.mk.injEq] at h2
        have u := transformInsertDelete_versions
          ⟨OpType.insert, b.position, b.text, b.version + 1⟩
          ⟨OpType.delete, a.position, a.text, a.version + 1⟩
        rw [h2.1, h2.2] at u
        dsimp only at u
        rw [u.2, u.1, hv]
        exact ⟨rfl, rfl⟩
      · injection h with h2
        have u := transformDeleteDelete_versions
          ⟨OpType.delete, a.position, a.text, a.version + 1⟩
          ⟨OpType.delete, b.position, b.text, b.version + 1⟩
        rw [h2] at u
        dsimp only at u
        rw [u.1, u.2, hv]
        exact ⟨rfl, rfl⟩
      · exact Except.noConfusion h
      · exact Except.noConfusion h
      · exact Except.noConfusion h
      · exact Except.noConfusion h
    · rw [Bool.not_eq_true] at hvb
      rw [hvb] at h
      simp only [Bool.not_false, if_true] at h
      exact Except.noConfusion h
  · rw [Bool.not_eq_true] at hva
    rw [hva] at h
    simp only [Bool.not_false, if_true] at h
    exact Except.noConfusion h

/-- Witness for C4 at a = insert(0,"a",5), b = delete(0,"q",5). -/
theorem transform_bumps_version_to_max_plus_one_witness :
    (Operation.mk .insert 0 ['a'] 6).version = max (5 : Int) 5 + 1 ∧
    (Operation.mk .delete 1 ['q'] 6).version = max (5 : Int) 5 + 1 :=
  transform_bumps_version_to_max_plus_one
    (Operation.mk .insert 0 ['a'] 5) (Operation.mk .delete 0 ['q'] 5)
    (Operation.mk .insert 0 ['a'] 6) (Operation.mk .delete 1 ['q'] 6)
    rfl rfl

/-- C5: for any document and any valid Insert whose position is in range, a
Delete at the same position carrying the inserted text applies successfully
to the inserted result and restores the original document. -/
theorem apply_insert_then_delete_inverts (D : Str) (I : Operation)
    (ht : I.type = .insert) (hv : I.Validate = true)
    (hp : I.position ≤ (D.length : Int)) :
    ∃ mid, Apply D I = .ok mid ∧
      Apply mid ⟨.delete, I.position, I.text, I.version⟩ = .ok D := by
  have hval := hv
  unfold Operation.Validate at hval
  rw [ht] at hval
  simp only [Bool.and_eq_true, decide_eq_true_eq, Bool.not_eq_true'] at hval
  obtain ⟨⟨hpos0, hver0⟩, hne⟩ := hval
  have hneNil : I.text ≠ [] := by simpa using hne
  have htl : 0 < I.text.length := List.length_pos.mpr hneNil
  have hcast : ((I.position.toNat : Int)) = I.position := Int.toNat_of_nonneg hpos0
  have hnD : I.position.toNat ≤ D.length := by omega
  have h1 : (D.take I.position.toNat).length = I.position.toNat := by
    simp [List.length_take]
    omega
  have h2 : (D.take I.position.toNat ++ I.text).length =
      I.position.toNat + I.text.length := by
    simp [List.length_append, h1]
  refine ⟨D.take I.position.toNat ++ I.text ++ D.drop I.position.toNat, ?_, ?_⟩
  · unfold Apply
    rw [hv]
    simp only [Bool.not_true, Bool.false_eq_true, if_false]
    rw [ht]
    unfold applyInsert
    rw [if_neg (by push_neg; exact ⟨hpos0, hp⟩)]
  · have hvd : (⟨.delete, I.position, I.text, I.version⟩ : Operation).Validate = true := by
      unfold Operation.Validate
      simp [hpos0, hver0, hne]
    unfold Apply
    rw [hvd]
    simp only [Bool.not_true, Bool.false_eq_true, if_false]
    unfold applyDelete
    have hlen : (D.take I.position.toNat ++ I.text ++ D.drop I.position.toNat).length =
        D.length + I.text.length := by
      simp [List.length_append, List.length_take, List.length_drop]
      omega
    rw [if_neg (by push_neg; refine ⟨hpos0, ?_⟩; rw [hlen]; push_cast; omega)]
    rw [if_neg (by rw [hlen]; unfold Operation.Length; push_cast; omega)]
    have hactual : ((D.take I.position.toNat ++ I.text ++ D.drop I.position.toNat).drop
        I.position.toNat).take I.text.length = I.text := by
      rw [List.append_assoc, List.drop_left' h1, List.take_left' rfl]
    rw [if_pos hactual]
    have e1 : (D.take I.position.toNat ++ I.text ++ D.drop I.position.toNat).take
        I.position.toNat = D.take I.position.toNat := by
      rw [List.append_assoc]
      exact List.take_left' h1
    have e2 : (D.take I.position.toNat ++ I.text ++ D.drop I.position.toNat).drop
        (I.position.toNat + I.text.length) = D.drop I.position.toNat :=
      List.drop_left' h2
    rw [e1, e2, List.take_append_drop]

/-- Witness for C5 at D = "ab", I = insert(1,"X",0). -/
theorem apply_insert_then_delete_inverts_witness :
    ∃ mid, Apply ['a', 'b'] (Operation.mk .insert 1 ['X'] 0) = .ok mid ∧
      Apply mid ⟨.delete, 1, ['X'], 0⟩ = .ok ['a', 'b'] :=
  apply_insert_then_delete_inverts ['a', 'b'] (Operation.mk .insert 1 ['X'] 0)
    rfl (by decide) (by decide)

/-- Document from the document package: content, version and lastModified
(wall-clock time is abstracted to a counter supplied by the caller in place
of time.Now()). -/
structure Document where
  content : Str
  version : Nat
  lastModified : Nat
deriving DecidableEq

/-- NewDocument from the document package: empty content, version 0. -/
def NewDocument (now : Nat) : Document :=
  { content := [], version := 0, lastModified := now }

/-- SetContent from the document package: replace content, bump version,
update lastModified. -/
def Document.SetContent (d : Document) (content : Str) (now : Nat) : Document :=
  { content := content, version := d.version + 1, lastModified := now }

/-- ApplyOperation from the document package: apply the operation to the
content; on error the state is unchanged and the current version is returned
with the error; on success the new content and bumped version are committed
and returned. -/
def Document.ApplyOperation (d : Document) (op : Operation) (now : Nat) :
    Document × Str × Nat × Option OpError :=
  match Apply d.content op with
  | .error e => (d, [], d.version, some e)
  | .ok newContent =>
      ({ content := newContent, version := d.version + 1, lastModified := now },
       newContent, d.version + 1, none)

/-- C6: ApplyOperation is atomic and increments the version by exactly one:
when Apply fails the document state (content, version, lastModified) is
unchanged and the current version is returned with the error; when Apply
succeeds the new content is committed and the returned version is the old
version plus one. -/
theorem applyOperation_atomic_version_increment
    (d : Document) (op : Operation) (now : Nat) :
    (∀ e, Apply d.content op = .error e →
        d.ApplyOperation op now = (d, [], d.version, some e)) ∧
    (∀ c, Apply d.content op = .ok c →
        d.ApplyOperation op now =
          ({ content := c, version := d.version + 1, lastModified := now },
           c, d.version + 1, none)) := by
  constructor
  · intro e he
    unfold Document.ApplyOperation
    rw [he]
  · intro c hc
    unfold Document.ApplyOperation
    rw [hc]

/-- Witness for C6: a failing delete leaves document ("a", v3) unchanged
and returns version 3; a succeeding insert commits and returns version 4. -/
theorem applyOperation_atomic_version_increment_witness :
    (Document.mk ['a'] 3 0).ApplyOperation (Operation.mk .delete 0 ['z'] 0) 7 =
      (Document.mk ['a'] 3 0, [], 3, some .deleteTextMismatch) ∧
    (Document.mk ['a'] 3 0).ApplyOperation (Operation.mk .insert 1 ['b'] 0) 7 =
      (Document.mk ['a', 'b'] 4 7, ['a', 'b'], 4, none) :=
  ⟨(applyOperation_atomic_version_increment (Document.mk ['a'] 3 0)
      (Operation.mk .delete 0 ['z'] 0) 7).1 .deleteTextMismatch rfl,
   (applyOperation_atomic_version_increment (Document.mk ['a'] 3 0)
      (Operation.mk .insert 1 ['b'] 0) 7).2 ['a', 'b'] rfl⟩

/-- Message from hub/message.go: the wire envelope; the Go MessageType is a
string tag ("content", "operation", "user_count"), other strings fall to the
default branch of the hub switch. -/
structure Message where
  type : String
  documentID : String
  content : Str
  operation : Option Operation
  userCount : Int
deriving DecidableEq

/-- NewUserCountMessage from hub/message.go. -/
def NewUserCountMessage (count : Int) : Message :=
  { type := "user_count", documentID := "", content := [],
    operation := none, userCount := count }

/-- A value held in a client's outbound queue: either raw broadcast bytes or
a serialized structured message (the JSON encoding of ToBytes is abstracted
into the constructor). -/
inductive Packet where
  | raw (bytes : Str)
  | ser (m : Message)
deriving DecidableEq

/-- Client from hub/client.go as the hub sees it: an identity, the bound
document, and the contents of the buffered outbound channel. -/
structure HubClient where
  cid : Nat
  documentID : String
  send : List Packet
deriving DecidableEq

/-- Capacity of the outbound channel (make(chan []byte, 256)). -/
def sendCapacity : Nat := 256

/-- Hub from hub/hub.go: the client set, the document table, and the clients
scheduled for unregistration by the background `go h.Unregister(client)`
tasks spawned on backpressure. -/
structure HubState where
  clients : List HubClient
  documents : List (String × Document)
  pendingUnregister : List Nat
deriving DecidableEq

/-- The nonblocking send of broadcastToAll / broadcastToDocument: enqueue if
the buffer has room, otherwise leave the queue alone and report that the
client must be scheduled for removal (the default branch). -/
def pushOrSchedule (message : Packet) (c : HubClient) : HubClient × Bool :=
  if c.send.length < sendCapacity then
    ({ c with send := c.send ++ [message] }, false)
  else
    (c, true)

/-- The nonblocking send of broadcastUserCount, whose default branch does
nothing at all. -/
def pushSkip (message : Packet) (c : HubClient) : HubClient :=
  if c.send.length < sendCapacity then { c with send := c.send ++ [message] } else c

/-- Per-client action of broadcastToAll: skip the excluded sender, otherwise
attempt the send. -/
def fanoutStep (message : Packet) (exclude : Option Nat) (c : HubClient) :
    HubClient × Bool :=
  if exclude = some c.cid then (c, false) else pushOrSchedule message c

/-- Per-client action of broadcastToDocument: only clients bound to the
document participate. -/
def fanoutDocStep (documentID : String) (message : Packet) (exclude : Option Nat)
    (c : HubClient) : HubClient × Bool :=
  if c.documentID = documentID then fanoutStep message exclude c else (c, false)

/-- broadcastToAll from hub/hub.go: send to every client except the excluded
one; clients with a full buffer are scheduled for unregistration. -/
def broadcastToAll (st : HubState) (message : Packet) (exclude : Option Nat) :
    HubState :=
  { st with
      clients := st.clients.map (fun c => (fanoutStep message exclude c).1),
      pendingUnregister := st.pendingUnregister ++
        (st.clients.filter (fun c => (fanoutStep message exclude c).2)).map
          (fun c => c.cid) }

/-- broadcastToDocument from hub/hub.go: send to every client of the given
document except the excluded one; full buffers schedule unregistration. -/
def broadcastToDocument (st : HubState) (documentID : String) (message : Packet)
    (exclude : Option Nat) : HubState :=
  { st with
      clients := st.clients.map (fun c => (fanoutDocStep documentID message exclude c).1),
      pendingUnregister := st.pendingUnregister ++
        (st.clients.filter (fun c => (fanoutDocStep documentID message exclude c).2)).map
          (fun c => c.cid) }

/-- Per-client action of one document round of broadcastUserCount. -/
def userCountStep (counts : String → Int) (d : String) (c : HubClient) : HubClient :=
  if c.documentID = d then pushSkip (Packet.ser (NewUserCountMessage (counts d))) c
  else c

/-- broadcastUserCount from hub/hub.go: compute per-document client counts,
then push one user_count message to each client of each counted document;
the full-buffer default branch drops the message without scheduling
anything. -/
def broadcastUserCount (st : HubState) : HubState :=
  let counts : String → Int :=
    fun d => ((st.clients.filter (fun c => c.documentID = d)).length : Int)
  let ids := (st.clients.map (fun c => c.documentID)).eraseDups
  { st with clients := ids.foldl (fun cs d => cs.map (userCountStep counts d)) st.clients }

/-- GetOrCreateDocument from hub/hub.go over an association-list document
table; a missing entry is created as a fresh NewDocument. -/
def GetOrCreateDocument (st : HubState) (documentID : String) (now : Nat) :
    HubState × Document :=
  match st.documents.lookup documentID with
  | some d => (st, d)
  | none =>
      ({ st with documents := st.documents ++ [(documentID, NewDocument now)] },
       NewDocument now)

/-- Write back a mutated document (the Go code mutates it through the shared
pointer held in the map). -/
def setDocument (st : HubState) (documentID : String) (d : Document) : HubState :=
  { st with documents :=
      st.documents.map (fun kv => if kv.1 = documentID then (documentID, d) else kv) }

/-- The unregister case of Hub.Run: remove the client if present (its queue
is closed by removal), then broadcast user counts — the broadcast happens
whether or not the client was present. -/
def processUnregister (st : HubState) (cid : Nat) : HubState :=
  let st1 :=
    if st.clients.any (fun c => c.cid == cid) then
      { st with clients := st.clients.filter (fun c => c.cid != cid) }
    else st
  broadcastUserCount st1

/-- Decode outcome of one broadcast, standing in for MessageFromBytes and
IsLegacyContent: bytes that fail structured decoding (or are detected as
legacy) are the legacy constructor; a successful decode keeps both the
structured message and the original raw bytes. -/
inductive BroadcastPayload where
  | legacy (raw : Str)
  | structured (m : Message) (raw : Str)

/-- The broadcast case of Hub.Run from hub/hub.go.  Legacy bytes and
messages without a document ID are fanned out to all clients with a nil
exclude; structured messages are routed per document: operations are applied
(dropped on failure) and re-serialized with the new version, non-empty
content messages update the document, and all other structured messages are
fanned out raw on the document, each excluding the sender. -/
def processBroadcast (st : HubState) (payload : BroadcastPayload)
    (sender : Option Nat) (now : Nat) : HubState :=
  match payload with
  | .legacy raw => broadcastToAll st (Packet.raw raw) none
  | .structured m raw =>
    if m.documentID = "" then broadcastToAll st (Packet.raw raw) none
    else
      let st1 := (GetOrCreateDocument st m.documentID now).1
      let doc := (GetOrCreateDocument st m.documentID now).2
      if m.type = "operation" then
        match m.operation with
        | some op =>
          match doc.ApplyOperation op now with
          | (doc1, _, newVersion, none) =>
            let st2 := setDocument st1 m.documentID doc1
            let m1 := { m with operation := some { op with version := (newVersion : Int) } }
            broadcastToDocument st2 m.documentID (Packet.ser m1) sender
          | (_, _, _, some _) => st1
        | none => st1
      else if m.type = "content" then
        if m.content ≠ [] then
          let doc1 := doc.SetContent m.content now
          let st2 := setDocument st1 m.documentID doc1
          broadcastToDocument st2 m.documentID (Packet.ser m) sender
        else st1
      else
        broadcastToDocument st1 m.documentID (Packet.raw raw) sender

lemma forall2_map_self {α : Type} (R : α → α → Prop) (f : α → α) (l : List α)
    (h : ∀ a ∈ l, R a (f a)) : List.Forall₂ R l (l.map f) := by
  induction l with
  | nil => exact List.Forall₂.nil
  | cons x xs ih =>
      exact List.Forall₂.cons (h x (by simp))
        (ih (fun a ha => h a (by simp [ha])))

lemma forall2_refl {α : Type} (R : α → α → Prop) (l : List α)
    (h : ∀ a ∈ l, R a a) : List.Forall₂ R l l := by
  induction l with
  | nil => exact List.Forall₂.nil
  | cons x xs ih =>
      exact List.Forall₂.cons (h x (by simp))
        (ih (fun a ha => h a (by simp [ha])))

lemma foldl_map_fusion {α β : Type} (g : β → α → α) (ids : List β) (cs : List α) :
    ids.foldl (fun cs d => cs.map (g d)) cs =
      cs.map (fun c => ids.foldl (fun c d => g d c) c) := by
  induction ids generalizing cs with
  | nil => simp
  | cons d ds ih =>
      simp only [List.foldl_cons]
      rw [ih (cs.map (g d)), List.map_map]
      rfl

lemma userCountStep_fields (counts : String → Int) (d : String) (c : HubClient) :
    (userCountStep counts d c).cid = c.cid ∧
    (userCountStep counts d c).documentID = c.documentID := by
  unfold userCountStep pushSkip
  repeat' split
  all_goals exact ⟨rfl, rfl⟩

lemma userCountStep_full (counts : String → Int) (d : String) (c : HubClient)
    (h : sendCapacity ≤ c.send.length) : userCountStep counts d c = c := by
  unfold userCountStep pushSkip
  split
  · rw [if_neg (by omega)]
  · rfl

lemma foldl_userCountStep_fields (counts : String → Int) (ids : List String)
    (c : HubClient) :
    (ids.foldl (fun c d => userCountStep counts d c) c).cid = c.cid ∧
    (ids.foldl (fun c d => userCountStep counts d c) c).documentID = c.documentID := by
  induction ids generalizing c with
  | nil => exact ⟨rfl, rfl⟩
  | cons d ds ih =>
      simp only [List.foldl_cons]
      obtain ⟨h1, h2⟩ := ih (userCountStep counts d c)
      obtain ⟨g1, g2⟩ := userCountStep_fields counts d c
      exact ⟨h1.trans g1, h2.trans g2⟩

lemma foldl_userCountStep_full (counts : String → Int) (ids : List String)
    (c : HubClient) (h : sendCapacity ≤ c.send.length) :
    ids.foldl (fun c d => userCountStep counts d c) c = c := by
  induction ids with
  | nil => rfl
  | cons d ds ih =>
      simp only [List.foldl_cons]
      rw [userCountStep_full counts d c h]
      exact ih

lemma broadcastUserCount_clients (st : HubState) :
    (broadcastUserCount st).clients = st.clients.map
      (fun c => ((st.clients.map (fun c => c.documentID)).eraseDups).foldl
        (fun c d => userCountStep
          (fun d => ((st.clients.filter (fun c => c.documentID = d)).length : Int)) d c) c) := by
  unfold broadcastUserCount
  exact foldl_map_fusion _ _ _

lemma broadcastUserCount_ids (st : HubState) :
    (broadcastUserCount st).clients.map (fun c => (c.cid, c.documentID)) =
      st.clients.map (fun c => (c.cid, c.documentID)) := by
  rw [broadcastUserCount_clients, List.map_map]
  apply List.map_congr_left
  intro c hc
  obtain ⟨h1, h2⟩ := foldl_userCountStep_fields
    (fun d => ((st.clients.filter (fun c => c.documentID = d)).length : Int))
    ((st.clients.map (fun c => c.documentID)).eraseDups) c
  simp [Function.comp, h1, h2]

lemma GetOrCreateDocument_clients (st : HubState) (documentID : String) (now : Nat) :
    (GetOrCreateDocument st documentID now).1.clients = st.clients := by
  unfold GetOrCreateDocument
  split
  · rfl
  · rfl

lemma setDocument_clients (st : HubState) (documentID : String) (d : Document) :
    (setDocument st documentID d).clients = st.clients := rfl

lemma broadcastToDocument_clients (st : HubState) (documentID : String) (p : Packet)
    (ex : Option Nat) :
    (broadcastToDocument st documentID p ex).clients =
      st.clients.map (fun c => (fanoutDocStep documentID p ex c).1) := rfl

lemma broadcastToAll_clients (st : HubState) (p : Packet) (ex : Option Nat) :
    (broadcastToAll st p ex).clients =
      st.clients.map (fun c => (fanoutStep p ex c).1) := rfl

lemma fanoutDocStep_excluded (documentID : String) (p : Packet) (sid : Nat)
    (c : HubClient) (h : c.cid = sid) :
    (fanoutDocStep documentID p (some sid) c).1 = c := by
  unfold fanoutDocStep fanoutStep
  subst h
  simp

lemma processBroadcast_structured_shape (st : HubState) (m : Message) (raw : Str)
    (sender : Option Nat) (now : Nat) (hdoc : m.documentID ≠ "") :
    (processBroadcast st (.structured m raw) sender now).clients = st.clients ∨
    ∃ p, (processBroadcast st (.structured m raw) sender now).clients =
      st.clients.map (fun c => (fanoutDocStep m.documentID p sender c).1) := by
  unfold processBroadcast
  dsimp only
  rw [if_neg hdoc]
  by_cases hop : m.type = "operation"
  · rw [if_pos hop]
    cases hmo : m.operation with
    | none =>
        left
        exact GetOrCreateDocument_clients st m.documentID now
    | some op =>
        dsimp only
        rcases happ : ((GetOrCreateDocument st m.documentID now).2).ApplyOperation op now
          with ⟨doc1, cc, vv, err⟩
        cases err with
        | none =>
            right
            refine ⟨Packet.ser { m with operation := some { op with version := (vv : Int) } }, ?_⟩
            rw [broadcastToDocument_clients, setDocument_clients, GetOrCreateDocument_clients]
        | some e =>
            left
            exact GetOrCreateDocument_clients st m.documentID now
  · rw [if_neg hop]
    by_cases hct : m.type = "content"
    · rw [if_pos hct]
      by_cases hc : m.content ≠ []
      · rw [if_pos hc]
        right
        refine ⟨Packet.ser m, ?_⟩
        rw [broadcastToDocument_clients, setDocument_clients, GetOrCreateDocument_clients]
      · rw [if_neg hc]
        left
        exact GetOrCreateDocument_clients st m.documentID now
    · rw [if_neg hct]
      right
      refine ⟨Packet.raw raw, ?_⟩
      rw [broadcastToDocument_clients, GetOrCreateDocument_clients]

/-- C2: the spec claims sender exclusion even on the legacy path, but the
hub's Run loop passes nil (not the sender) to broadcastToAll for legacy
bytes: the sender with cid 0 receives its own broadcast. -/
theorem legacy_broadcast_reaches_sender :
    (processBroadcast (HubState.mk [HubClient.mk 0 "d" [], HubClient.mk 1 "d" []] [] [])
        (.legacy ['h', 'i']) (some 0) 0).clients =
      [HubClient.mk 0 "d" [Packet.raw ['h', 'i']],
       HubClient.mk 1 "d" [Packet.raw ['h', 'i']]] := by decide

/-- C2 (amended): sender exclusion holds for broadcasts that decode as
structured messages with a non-empty document_id; on the legacy path the hub
fans the raw bytes out to every participant with room in its queue,
including the sender. -/
theorem sender_exclusion_structured_only (st : HubState) (m : Message) (raw : Str)
    (sid : Nat) (now : Nat) (hdoc : m.documentID ≠ "") :
    List.Forall₂ (fun c c1 => c.cid = sid → c1 = c) st.clients
      (processBroadcast st (.structured m raw) (some sid) now).clients ∧
    List.Forall₂ (fun c c1 => c.send.length < sendCapacity →
        c1.send = c.send ++ [Packet.raw raw]) st.clients
      (processBroadcast st (.legacy raw) (some sid) now).clients := by
  constructor
  · rcases processBroadcast_structured_shape st m raw (some sid) now hdoc with
      hsame | ⟨p, hmap⟩
    · rw [hsame]
      exact forall2_refl _ _ (fun c hc _ => rfl)
    · rw [hmap]
      exact forall2_map_self _ _ _ (fun c hc hcid => fanoutDocStep_excluded _ p sid c hcid)
  · show List.Forall₂ _ st.clients (broadcastToAll st (Packet.raw raw) none).clients
    rw [broadcastToAll_clients]
    apply forall2_map_self
    intro c hc hlen
    unfold fanoutStep pushOrSchedule
    rw [if_neg (by simp), if_pos hlen]

/-- Witness for the amended C2 at a concrete two-client hub. -/
theorem sender_exclusion_structured_only_witness :
    List.Forall₂ (fun c c1 => c.cid = 0 → c1 = c)
      [HubClient.mk 0 "d" [], HubClient.mk 1 "d" []]
      ((processBroadcast
          (HubState.mk [HubClient.mk 0 "d" [], HubClient.mk 1 "d" []] [] [])
          (.structured (Message.mk "x" "d" [] none 0) ['r']) (some 0) 0).clients) :=
  (sender_exclusion_structured_only
      (HubState.mk [HubClient.mk 0 "d" [], HubClient.mk 1 "d" []] [] [])
      (Message.mk "x" "d" [] none 0) ['r'] 0 0 (by decide)).1

lemma processBroadcast_default_branch (st : HubState) (m : Message) (raw : Str)
    (sender : Option Nat) (now : Nat) (hdoc : m.documentID ≠ "")
    (hop : m.type ≠ "operation") (hct : m.type ≠ "content") :
    processBroadcast st (.structured m raw) sender now =
      broadcastToDocument (GetOrCreateDocument st m.documentID now).1
        m.documentID (Packet.raw raw) sender := by
  unfold processBroadcast
  dsimp only
  rw [if_neg hdoc, if_neg hop, if_neg hct]

lemma processBroadcast_content_empty (st : HubState) (m : Message) (raw : Str)
    (sender : Option Nat) (now : Nat) (hdoc : m.documentID ≠ "")
    (hct : m.type = "content") (hc : m.content = []) :
    processBroadcast st (.structured m raw) sender now =
      (GetOrCreateDocument st m.documentID now).1 := by
  unfold processBroadcast
  dsimp only
  rw [if_neg hdoc, if_neg (show ¬ m.type = "operation" by rw [hct]; decide),
      if_pos hct, if_neg (show ¬ m.content ≠ [] from fun hcon => hcon hc)]

lemma processBroadcast_operation_none (st : HubState) (m : Message) (raw : Str)
    (sender : Option Nat) (now : Nat) (hdoc : m.documentID ≠ "")
    (hop : m.type = "operation") (hno : m.operation = none) :
    processBroadcast st (.structured m raw) sender now =
      (GetOrCreateDocument st m.documentID now).1 := by
  unfold processBroadcast
  dsimp only
  rw [if_neg hdoc, if_pos hop, hno]

/-- C7: the spec's "else: fan out raw bytes" is claimed to cover content
messages with empty content and operation messages without an operation,
but the hub drops both: on a two-client hub, a content message for "d" with
empty content enqueues nothing at all (the second client receives no raw
bytes). -/
theorem empty_content_message_not_fanned_out :
    (processBroadcast (HubState.mk [HubClient.mk 0 "d" [], HubClient.mk 1 "d" []] [] [])
        (.structured (Message.mk "content" "d" [] none 0) ['r']) (some 0) 0).clients =
      [HubClient.mk 0 "d" [], HubClient.mk 1 "d" []] := by decide

/-- C7 (amended): a structured message with a non-empty document_id is fanned
out raw on its document (excluding the sender) only when its type is neither
operation nor content; a content message with empty content and an operation
message without an operation cause no fan-out at all. -/
theorem structured_fanout_only_for_other_types (st : HubState) (m : Message)
    (raw : Str) (sender : Option Nat) (now : Nat) (hdoc : m.documentID ≠ "") :
    (m.type ≠ "operation" → m.type ≠ "content" →
      List.Forall₂ (fun c c1 =>
        (sender = some c.cid → c1 = c) ∧
        (c.documentID ≠ m.documentID → c1 = c) ∧
        (c.documentID = m.documentID → sender ≠ some c.cid →
          c.send.length < sendCapacity → c1.send = c.send ++ [Packet.raw raw]))
        st.clients (processBroadcast st (.structured m raw) sender now).clients) ∧
    (m.type = "content" → m.content = [] →
      (processBroadcast st (.structured m raw) sender now).clients = st.clients) ∧
    (m.type = "operation" → m.operation = none →
      (processBroadcast st (.structured m raw) sender now).clients = st.clients) := by
  refine ⟨?_, ?_, ?_⟩
  · intro hop hct
    rw [processBroadcast_default_branch st m raw sender now hdoc hop hct,
        broadcastToDocument_clients, GetOrCreateDocument_clients]
    apply forall2_map_self
    intro c hc
    refine ⟨?_, ?_, ?_⟩
    · intro hsid
      unfold fanoutDocStep fanoutStep
      rw [hsid]
      simp
    · intro hd
      unfold fanoutDocStep
      rw [if_neg hd]
    · intro hd hs hlen
      unfold fanoutDocStep fanoutStep pushOrSchedule
      rw [if_pos hd, if_neg hs, if_pos hlen]
  · intro hct hc
    rw [processBroadcast_content_empty st m raw sender now hdoc hct hc,
        GetOrCreateDocument_clients]
  · intro hop hno
    rw [processBroadcast_operation_none st m raw sender now hdoc hop hno,
        GetOrCreateDocument_clients]

/-- Witness for the amended C7: a user_count-typed structured message for
"d" is fanned out raw, and the relation holds at a concrete two-client
hub. -/
theorem structured_fanout_only_for_other_types_witness :
    List.Forall₂ (fun c c1 =>
        ((some 0 : Option Nat) = some c.cid → c1 = c) ∧
        (c.documentID ≠ "d" → c1 = c) ∧
        (c.documentID = "d" → (some 0 : Option Nat) ≠ some c.cid →
          c.send.length < sendCapacity → c1.send = c.send ++ [Packet.raw ['r']]))
      [HubClient.mk 0 "d" [], HubClient.mk 1 "d" []]
      ((processBroadcast (HubState.mk [HubClient.mk 0 "d" [], HubClient.mk 1 "d" []] [] [])
          (.structured (Message.mk "user_count" "d" [] none 0) ['r']) (some 0) 0).clients) :=
  (structured_fanout_only_for_other_types
      (HubState.mk [HubClient.mk 0 "d" [], HubClient.mk 1 "d" []] [] [])
      (Message.mk "user_count" "d" [] none 0) ['r'] (some 0) 0 (by decide)).1
    (by decide) (by decide)

/-- C8: the spec claims the user-count path uses the same backpressure rule
as ordinary fan-out (skip and schedule removal), but broadcastUserCount's
full-queue default branch does nothing: with one client whose queue holds
256 packets, the broadcast leaves the queue unchanged and schedules no
unregistration. -/
theorem user_count_full_queue_not_scheduled :
    (broadcastUserCount (HubState.mk
        [HubClient.mk 7 "d" (List.replicate sendCapacity (Packet.raw ['x']))]
        [] [])).pendingUnregister = [] ∧
    (broadcastUserCount (HubState.mk
        [HubClient.mk 7 "d" (List.replicate sendCapacity (Packet.raw ['x']))]
        [] [])).clients =
      [HubClient.mk 7 "d" (List.replicate sendCapacity (Packet.raw ['x']))] := by
  exact ⟨rfl, by decide⟩

/-- C8 (amended): on the user-count emission path a full outbound queue makes
the hub skip the message, but unlike ordinary fan-out the participant is not
scheduled for removal: broadcastUserCount never touches the pending
unregistration set and leaves every full-queue client entirely unchanged. -/
theorem user_count_backpressure_skips_without_eviction (st : HubState) :
    (broadcastUserCount st).pendingUnregister = st.pendingUnregister ∧
    List.Forall₂ (fun c c1 => sendCapacity ≤ c.send.length → c1 = c)
      st.clients (broadcastUserCount st).clients := by
  refine ⟨rfl, ?_⟩
  rw [broadcastUserCount_clients]
  apply forall2_map_self
  intro c hc hfull
  exact foldl_userCountStep_full _ _ c hfull

/-- Witness for the amended C8 at a one-client hub with a full queue. -/
theorem user_count_backpressure_skips_without_eviction_witness :
    (broadcastUserCount (HubState.mk
        [HubClient.mk 7 "d" (List.replicate sendCapacity (Packet.raw ['x']))]
        [] [(3 : Nat)])).pendingUnregister = [(3 : Nat)] ∧
    List.Forall₂ (fun c c1 => sendCapacity ≤ c.send.length → c1 = c)
      [HubClient.mk 7 "d" (List.replicate sendCapacity (Packet.raw ['x']))]
      ((broadcastUserCount (HubState.mk
          [HubClient.mk 7 "d" (List.replicate sendCapacity (Packet.raw ['x']))]
          [] [(3 : Nat)])).clients) :=
  user_count_backpressure_skips_without_eviction
    (HubState.mk [HubClient.mk 7 "d" (List.replicate sendCapacity (Packet.raw ['x']))]
      [] [(3 : Nat)])

/-- C9: the spec claims unregistering an already-gone participant is a
no-op, but the hub calls broadcastUserCount unconditionally: with one
registered client and an absent cid 99, the registered client's outbound
queue gains a user_count message. -/
theorem unregister_absent_enqueues_user_count :
    (processUnregister (HubState.mk [HubClient.mk 1 "d" []] [] []) 99).clients =
      [HubClient.mk 1 "d" [Packet.ser (NewUserCountMessage 1)]] := by decide

/-- C9 (amended): unregistering an absent participant leaves the participant
set (identities and document bindings) and the document table unchanged, but
the processing still equals a full broadcastUserCount, which may enqueue
user_count messages into registered participants' queues. -/
theorem unregister_absent_preserves_sets_but_broadcasts (st : HubState) (cid : Nat)
    (h : ∀ c ∈ st.clients, c.cid ≠ cid) :
    processUnregister st cid = broadcastUserCount st ∧
    (processUnregister st cid).documents = st.documents ∧
    (processUnregister st cid).clients.map (fun c => (c.cid, c.documentID)) =
      st.clients.map (fun c => (c.cid, c.documentID)) := by
  have hany : ¬ st.clients.any (fun c => c.cid == cid) = true := by
    intro hcon
    rcases List.any_eq_true.mp hcon with ⟨c, hc, hcc⟩
    exact h c hc (by simpa using hcc)
  have heq : processUnregister st cid = broadcastUserCount st := by
    unfold processUnregister
    rw [if_neg hany]
  refine ⟨heq, ?_, ?_⟩
  · rw [heq]
    rfl
  · rw [heq]
    exact broadcastUserCount_ids st

/-- Witness for the amended C9 at a one-client hub and absent cid 99. -/
theorem unregister_absent_preserves_sets_but_broadcasts_witness :
    processUnregister (HubState.mk [HubClient.mk 1 "d" []] [] []) 99 =
      broadcastUserCount (HubState.mk [HubClient.mk 1 "d" []] [] []) ∧
    (processUnregister (HubState.mk [HubClient.mk 1 "d" []] [] []) 99).documents =
      (HubState.mk [HubClient.mk 1 "d" []] [] []).documents ∧
    (processUnregister (HubState.mk [HubClient.mk 1 "d" []] [] []) 99).clients.map
        (fun c => (c.cid, c.documentID)) =
      (HubState.mk [HubClient.mk 1 "d" []] [] []).clients.map
        (fun c => (c.cid, c.documentID)) :=
  unregister_absent_preserves_sets_but_broadcasts
    (HubState.mk [HubClient.mk 1 "d" []] [] []) 99 (by decide)

/-- C10: processing a legacy (decode-failure) broadcast never touches the
document table — no entry is created and no document changes — and each
client's queue is either unchanged (full) or extended by exactly the raw
bytes; client identities and document bindings are untouched. -/
theorem legacy_broadcast_preserves_documents (st : HubState) (raw : Str)
    (sender : Option Nat) (now : Nat) :
    (processBroadcast st (.legacy raw) sender now).documents = st.documents ∧
    List.Forall₂ (fun c c1 => c1.cid = c.cid ∧ c1.documentID = c.documentID ∧
        (c1.send = c.send ∨ c1.send = c.send ++ [Packet.raw raw]))
      st.clients (processBroadcast st (.legacy raw) sender now).clients := by
  constructor
  · rfl
  · show List.Forall₂ _ st.clients (broadcastToAll st (Packet.raw raw) none).clients
    rw [broadcastToAll_clients]
    apply forall2_map_self
    intro c hc
    unfold fanoutStep pushOrSchedule
    rw [if_neg (by simp)]
    by_cases hlen : c.send.length < sendCapacity
    · rw [if_pos hlen]
      exact ⟨rfl, rfl, Or.inr rfl⟩
    · rw [if_neg hlen]
      exact ⟨rfl, rfl, Or.inl rfl⟩
